import Mathlib

/-!
Verification of the dockrice repository (path-to-mount resolution, mount
deduplication, command building, container lifecycle).

The Python sources are shallowly embedded as follows:

* `pathlib.PurePosixPath` objects become `PPath` (an absoluteness flag plus a
  list of name segments; the model carries no `..`/`.` segments, which the
  claims never exercise).
* `docker.types.Mount` (a `dict` with keys `Target`, `Source`, `Type`,
  `ReadOnly`; the repository always constructs it with `type="bind"`) becomes
  the structure `Mount`; Python `dict` equality becomes structural equality.
* `uuid.uuid4()`, which produces a fresh globally-unique identifier on each
  call, is modelled as an injective supply `uuidStr` indexed by a counter
  that every caller threads through; each access consumes one counter value.
* The host filesystem is an environment `Env` holding the current working
  directory and the set of existing (resolved) paths; `Path.resolve` becomes
  `resolveP` and `Path.exists` membership in `Env.fs`.
* Python exceptions (`AssertionError`, `ValueError`, `KeyError`) become the
  error type `DErr` through `Except`.
-/

namespace Dockrice

/-- Python exception classes raised by the embedded code. -/
inductive DErr where
  | assertionError (msg : String)
  | valueError (msg : String)
  | keyError (msg : String)
deriving DecidableEq, Repr

/-- A pure POSIX path: `absolute` is the leading-slash flag, `segments` the
name components, mirroring `pathlib.PurePosixPath`. -/
structure PPath where
  absolute : Bool
  segments : List String
deriving DecidableEq, Repr

/-- Join of segments with the separator, as in a POSIX `str()` rendering. -/
def renderSegs : List String → String
  | [] => ""
  | [s] => s
  | s :: rest => s ++ "/" ++ renderSegs rest

/-- The `str()` of a `PurePosixPath`: leading slash when absolute, `.` for the
empty relative path. -/
def render (p : PPath) : String :=
  if p.absolute then "/" ++ renderSegs p.segments
  else if p.segments = [] then "." else renderSegs p.segments

/-- `PurePosixPath.name`: the final component (empty for the root). -/
def PPath.name (p : PPath) : String := (p.segments.getLast?).getD ""

/-- `PurePosixPath.parent`: drop the final component. -/
def PPath.parent (p : PPath) : PPath := ⟨p.absolute, p.segments.dropLast⟩

/-- Append a single (relative) name component, as `PurePosixPath(p, name)`
does when `name` contains no separator. -/
def PPath.pushSeg (p : PPath) (s : String) : PPath := ⟨p.absolute, p.segments ++ [s]⟩

/-- The injective fresh-identifier supply standing in for `uuid.uuid4()`:
call number `n` yields a run of `n + 1` letters `u`. -/
def uuidStr (n : Nat) : String := String.mk (List.replicate (n + 1) 'u')

theorem uuidStr_length (n : Nat) : (uuidStr n).length = n + 1 := by
  simp [uuidStr, String.length]

theorem uuidStr_injective {m n : Nat} (h : uuidStr m = uuidStr n) : m = n := by
  have := congrArg String.length h
  rw [uuidStr_length, uuidStr_length] at this
  omega

/-- One bind-mount record, `docker.types.Mount` as the repository constructs
it: `dict` keys `Target`, `Source`, `Type`, `ReadOnly` become the fields
`target`, `source`, `mtype`, `readOnly`. `dict` equality is structural
equality. -/
structure Mount where
  target : String
  source : String
  mtype : String
  readOnly : Bool
deriving DecidableEq, Repr

/-- `MountSet._mirror_readonly`: copy the mount with the `ReadOnly` flag
flipped (dockerpath.py lines 161-165). -/
def mirrorReadonly (m : Mount) : Mount := { m with readOnly := !m.readOnly }

/-- The in-place upgrade `self.data[self.data.index(rev_item)]["ReadOnly"] =
False` (dockerpath.py line 191): set the `ReadOnly` flag of the first entry
equal to `key` to `false`, leaving its position unchanged. -/
def upgradeFirst : List Mount → Mount → List Mount
  | [], _ => []
  | x :: xs, key =>
      if x = key then { x with readOnly := false } :: xs
      else x :: upgradeFirst xs key

/-- Python `list.remove`: delete the first entry equal to `key` (the callers
below only invoke it under a membership guard, mirroring the `try` blocks). -/
def removeFirst : List Mount → Mount → List Mount
  | [], _ => []
  | x :: xs, key => if x = key then xs else x :: removeFirst xs key

/-- `MountSet.add` (dockerpath.py lines 184-193): if the item is present do
nothing; otherwise if its read-only mirror is present set that entry's
`ReadOnly` flag to `false` in place; otherwise append the item. -/
def addMount (data : List Mount) (item : Mount) : List Mount :=
  if item ∈ data then data
  else if mirrorReadonly item ∈ data then upgradeFirst data (mirrorReadonly item)
  else data ++ [item]

/-- `MountSet.discard` (dockerpath.py lines 195-202): remove the first exact
match; failing that, remove the first mirrored match; failing that, no-op. -/
def discardMount (data : List Mount) (item : Mount) : List Mount :=
  if item ∈ data then removeFirst data item
  else if mirrorReadonly item ∈ data then removeFirst data (mirrorReadonly item)
  else data

/-- `MountSet.remove` (dockerpath.py lines 204-211): like `discard`, but when
neither the item nor its mirror is present raise `KeyError`, leaving the
data unchanged. -/
def removeMount (data : List Mount) (item : Mount) : Except DErr (List Mount) :=
  if item ∈ data then .ok (removeFirst data item)
  else if mirrorReadonly item ∈ data then .ok (removeFirst data (mirrorReadonly item))
  else .error (.keyError "Item not in MountSet")

/-- `MountSet.__init__` / `MountSet.update`: fold `add` over the iterable. -/
def mountSetOfList (ms : List Mount) : List Mount := ms.foldl addMount []

/-- The (target, source) key of a mount, the pair the spec's dedup invariant
speaks about. -/
def tsKey (m : Mount) : String × String := (m.target, m.source)

/-- Two mounts describe the same (target, source) pair. -/
def tsEq (a b : Mount) : Prop := a.target = b.target ∧ a.source = b.source

/-- The deduplication invariant: no two entries share a (target, source)
pair. -/
def NoDupTS (l : List Mount) : Prop := (l.map tsKey).Nodup

/-- Every entry has `Type = "bind"`, as every `Mount` the repository ever
constructs does (`DockerPath.get_mount` passes `type="bind"`). -/
def AllBind (l : List Mount) : Prop := ∀ m ∈ l, m.mtype = "bind"

theorem mirrorReadonly_ne (m : Mount) : mirrorReadonly m ≠ m := by
  cases m with
  | mk t s ty ro => cases ro <;> simp [mirrorReadonly]

theorem tsEq_mirror (m : Mount) : tsEq (mirrorReadonly m) m := ⟨rfl, rfl⟩

theorem tsEq_of_tsKey {a b : Mount} (h : tsKey a = tsKey b) : tsEq a b := by
  simp [tsKey, Prod.ext_iff] at h
  exact h

theorem tsKey_of_tsEq {a b : Mount} (h : tsEq a b) : tsKey a = tsKey b := by
  simp [tsKey, Prod.ext_iff]
  exact h

/-- Two same-typed mounts on the same (target, source) pair are equal or
mirror each other. -/
theorem eq_or_mirror_of_tsEq {e m : Mount} (hts : tsEq e m) (hty : e.mtype = m.mtype) :
    e = m ∨ e = mirrorReadonly m := by
  obtain ⟨ht, hs⟩ := hts
  cases e with
  | mk et es ety ero =>
    cases m with
    | mk mt ms mty mro =>
      simp_all [mirrorReadonly]
      cases ero <;> cases mro <;> simp_all

/-- First-occurrence decomposition of a membership. -/
theorem mem_split_first {l : List Mount} {a : Mount} (h : a ∈ l) :
    ∃ pre post, l = pre ++ a :: post ∧ a ∉ pre := by
  induction l with
  | nil => cases h
  | cons x xs ih =>
    by_cases hx : x = a
    · exact ⟨[], xs, by rw [hx]; rfl, by simp⟩
    · have hmem : a ∈ xs := by
        cases h with
        | head => exact absurd rfl hx
        | tail _ h => exact h
      obtain ⟨pre, post, hsplit, hpre⟩ := ih hmem
      exact ⟨x :: pre, post, by rw [hsplit]; rfl, by simp [hpre, Ne.symm hx]⟩

theorem upgradeFirst_of_split {pre post : List Mount} {key : Mount} (hpre : key ∉ pre) :
    upgradeFirst (pre ++ key :: post) key =
      pre ++ { key with readOnly := false } :: post := by
  induction pre with
  | nil => simp [upgradeFirst]
  | cons x xs ih =>
    have hx : x ≠ key := by intro h; exact hpre (h ▸ List.mem_cons_self x xs)
    have hxs : key ∉ xs := fun h => hpre (List.mem_cons_of_mem x h)
    simp [upgradeFirst, hx, ih hxs]

theorem removeFirst_of_split {pre post : List Mount} {key : Mount} (hpre : key ∉ pre) :
    removeFirst (pre ++ key :: post) key = pre ++ post := by
  induction pre with
  | nil => simp [removeFirst]
  | cons x xs ih =>
    have hx : x ≠ key := by intro h; exact hpre (h ▸ List.mem_cons_self x xs)
    have hxs : key ∉ xs := fun h => hpre (List.mem_cons_of_mem x h)
    simp [removeFirst, hx, ih hxs]

/-- Writing `false` into an entry whose flag is already `false` changes
nothing. -/
theorem upgradeFirst_readOnly_false {l : List Mount} {key : Mount}
    (h : key.readOnly = false) : upgradeFirst l key = l := by
  induction l with
  | nil => rfl
  | cons x xs ih =>
    by_cases hx : x = key
    · subst hx
      have : { x with readOnly := false } = x := by
        cases x; simp_all
      simp [upgradeFirst, this]
    · simp [upgradeFirst, hx, ih]

/-- The upgrade rewrites only the `ReadOnly` field, so the (target, source)
keys are untouched. -/
theorem upgradeFirst_map_tsKey (l : List Mount) (key : Mount) :
    (upgradeFirst l key).map tsKey = l.map tsKey := by
  induction l with
  | nil => rfl
  | cons x xs ih =>
    by_cases hx : x = key
    · simp [upgradeFirst, hx, tsKey]
    · simp [upgradeFirst, hx, ih]

/-- Membership in a `NoDupTS` list rules out any second element on the same
(target, source) pair. -/
theorem not_tsEq_of_noDupTS {l : List Mount} (hnd : NoDupTS l) {a b : Mount}
    (ha : a ∈ l) (hb : b ∈ l) (hne : a ≠ b) : ¬ tsEq a b := by
  intro hts
  exact hne (List.inj_on_of_nodup_map hnd ha hb (tsKey_of_tsEq hts))

/-- When neither the item nor its mirror is present in a `NoDupTS` + `AllBind`
list of bind mounts, no entry shares its (target, source) pair at all. -/
theorem no_tsEq_of_not_mem {l : List Mount} (hb : AllBind l) {m : Mount}
    (hty : m.mtype = "bind") (hm : m ∉ l) (hmir : mirrorReadonly m ∉ l) :
    ∀ e ∈ l, ¬ tsEq e m := by
  intro e he hts
  rcases eq_or_mirror_of_tsEq hts ((hb e he).trans hty.symm) with h | h
  · exact hm (h ▸ he)
  · exact hmir (h ▸ he)

/-- `add` preserves the at-most-one-entry-per-(target, source) invariant and
the all-bind property. -/
theorem addMount_preserves {l : List Mount} {m : Mount} (hnd : NoDupTS l)
    (hb : AllBind l) (hty : m.mtype = "bind") :
    NoDupTS (addMount l m) ∧ AllBind (addMount l m) := by
  unfold addMount
  by_cases h1 : m ∈ l
  · simp [h1, hnd, hb]
  · by_cases h2 : mirrorReadonly m ∈ l
    · simp only [h1, h2, if_false, if_true]
      constructor
      · unfold NoDupTS
        rw [upgradeFirst_map_tsKey]
        exact hnd
      · intro e he
        obtain ⟨pre, post, hsplit, hpre⟩ := mem_split_first h2
        rw [hsplit, upgradeFirst_of_split hpre] at he
        rcases List.mem_append.mp he with h | h
        · exact hb e (hsplit ▸ List.mem_append_left _ h)
        · rcases List.mem_cons.mp h with h | h
          · subst h
            have := hb (mirrorReadonly m) h2
            simpa [mirrorReadonly] using this
          · exact hb e (hsplit ▸ List.mem_append_right _ (List.mem_cons_of_mem _ h))
    · simp only [h1, h2, if_false]
      constructor
      · unfold NoDupTS
        rw [List.map_append]
        rw [List.nodup_append]
        refine ⟨hnd, by simp, ?_⟩
        intro x hx
        simp only [List.map_cons, List.map_nil, List.mem_singleton]
        intro hx'
        obtain ⟨e, he, hkey⟩ := List.mem_map.mp hx
        exact no_tsEq_of_not_mem hb hty h1 h2 e he (tsEq_of_tsKey (hkey.trans hx'))
      · intro e he
        rcases List.mem_append.mp he with h | h
        · exact hb e h
        · simp at h
          subst h
          exact hty

/-- Folding `add` from the empty set keeps both invariants (the constructor
`MountSet.__init__` and `MountSet.update` both fold `add`). -/
theorem foldl_addMount_invariant (ms : List Mount) (hb : ∀ m ∈ ms, m.mtype = "bind") :
    ∀ acc, NoDupTS acc → AllBind acc →
      NoDupTS (ms.foldl addMount acc) ∧ AllBind (ms.foldl addMount acc) := by
  induction ms with
  | nil => intro acc h1 h2; exact ⟨h1, h2⟩
  | cons x xs ih =>
    intro acc h1 h2
    have hx : x.mtype = "bind" := hb x (List.mem_cons_self x xs)
    have hstep := addMount_preserves h1 h2 hx
    exact ih (fun m hm => hb m (List.mem_cons_of_mem x hm)) _ hstep.1 hstep.2

/-- Adding the same item twice is a no-op the second time. -/
theorem addMount_idem (l : List Mount) (m : Mount) :
    addMount (addMount l m) m = addMount l m := by
  unfold addMount
  by_cases h1 : m ∈ l
  · simp [h1]
  · by_cases h2 : mirrorReadonly m ∈ l
    · simp only [h1, h2, if_false, if_true]
      by_cases hro : m.readOnly = false
      · obtain ⟨pre, post, hsplit, hpre⟩ := mem_split_first h2
        rw [hsplit, upgradeFirst_of_split hpre]
        have hm : { mirrorReadonly m with readOnly := false } = m := by
          cases m; simp_all [mirrorReadonly]
        rw [hm]
        simp
      · have hkey : (mirrorReadonly m).readOnly = false := by
          simp [mirrorReadonly]
          cases hmro : m.readOnly
          · exact absurd hmro hro
          · rfl
        simp [h1, h2, upgradeFirst_readOnly_false hkey]
    · simp only [h1, h2, if_false]
      have : m ∈ l ++ [m] := List.mem_append_right _ (List.mem_singleton.mpr rfl)
      simp [this]

/-- The host environment visible to path resolution: the current working
directory (segments of an absolute path) and the set of paths that exist on
the host, given in resolved form. -/
structure Env where
  cwd : List String
  fs : List PPath
deriving Repr

/-- `Path.resolve(strict=False)` on POSIX, with no symlinks or `..` segments
in play: an absolute path is returned as is, a relative one is anchored at
the current working directory. -/
def resolveP (cwd : List String) (p : PPath) : PPath :=
  if p.absolute then p else ⟨true, cwd ++ p.segments⟩

/-- The `mount_path` configuration of a `DockerPath` (dockerpath.py): the
enum `MountOption.host` / `MountOption.random`, or an explicit `PathLike`
container path. -/
inductive MountOpt where
  | host
  | random
  | explicitPath (p : PPath)
deriving DecidableEq, Repr

/-- A `DockerPath` (dockerpath.py lines 22-64): the host path together with
the immutable `_mount_path`, `_read_only` and `_mount_parent` attributes. -/
structure DockerPath where
  path : PPath
  mountPathOpt : MountOpt
  readOnly : Bool
  mountParentOpt : Option Bool
deriving DecidableEq, Repr

/-- The `DockerPath.mount_parent` property (dockerpath.py lines 69-77): an
explicit setting wins; with `None` the host is probed — the resolved path
existing selects `False` (bind the path itself), a missing path selects
`True` (bind the parent). -/
def mountParentB (env : Env) (dp : DockerPath) : Bool :=
  match dp.mountParentOpt with
  | some b => b
  | none => if resolveP env.cwd dp.path ∈ env.fs then false else true

/-- The `DockerPath.mount_path` property (dockerpath.py lines 79-104). The
supply counter `n` stands for the stream of `uuid.uuid4()` draws; only the
`random` branch consumes one. In `host` mode the drive prefix is empty on
POSIX, so `remove_prefix` strips nothing and the target mirrors the resolved
host path. The trailing `assert mount_path.is_absolute()` becomes the final
absoluteness check, raising `AssertionError` when it fails. -/
def mount_path (env : Env) (n : Nat) (dp : DockerPath) : Except DErr (PPath × Nat) :=
  let r : PPath × Nat :=
    match dp.mountPathOpt with
    | .host => (resolveP env.cwd dp.path, n)
    | .random => (⟨true, ["temp", uuidStr n, dp.path.name]⟩, n + 1)
    | .explicitPath q =>
        (if mountParentB env dp then q.pushSeg dp.path.name else q, n)
  if r.1.absolute then .ok r
  else .error (.assertionError "Require an absolute path for the mount path")

/-- `DockerPath._get_target_source` (dockerpath.py lines 106-113): in the
bind-parent case the target is the container path's parent and the source the
host path's parent; otherwise the container path and the host path
themselves. The source is resolved before stringifying. -/
def get_target_source (env : Env) (n : Nat) (dp : DockerPath) :
    Except DErr ((String × String) × Nat) :=
  match mount_path env n dp with
  | .error e => .error e
  | .ok (mp, n') =>
      if mountParentB env dp then
        .ok ((render mp.parent, render (resolveP env.cwd dp.path.parent)), n')
      else
        .ok ((render mp, render (resolveP env.cwd dp.path)), n')

/-- `DockerPath.get_mount` (dockerpath.py lines 115-122): wrap the target and
source in a `docker.types.Mount` with `type="bind"` and the stored read-only
flag. -/
def get_mount (env : Env) (n : Nat) (dp : DockerPath) : Except DErr (Mount × Nat) :=
  match get_target_source env n dp with
  | .error e => .error e
  | .ok ((t, s), n') => .ok (⟨t, s, "bind", dp.readOnly⟩, n')

/-- The mutable state the dynamically generated `DockerAction` classes share
(argparse.py lines 101-105): the run-command token list, the `MountSet`
data, and the position of the uuid supply. -/
structure BuildState where
  runCommand : List String
  mounts : List Mount
  supply : Nat
deriving DecidableEq, Repr

/-- The `DockerPath` leaf case of `DockerAction._recursive_resolve_args`
(argparse.py lines 184-186): append `str(ret_value.mount_path)` to the run
command, then `self.mounts.add(ret_value.get_mount())`. Each of the two
calls evaluates the `mount_path` property anew, so each consumes its own
uuid draws. -/
def resolveDockerPathLeaf (env : Env) (st : BuildState) (dp : DockerPath) :
    Except DErr BuildState :=
  match mount_path env st.supply dp with
  | .error e => .error e
  | .ok (mp, n1) =>
      match get_mount env n1 dp with
      | .error e => .error e
      | .ok (m, n2) => .ok ⟨st.runCommand ++ [render mp], addMount st.mounts m, n2⟩

/-- Resolve the `mount_path` of each argument of one run in order, threading
the uuid supply. -/
def mountPathList (env : Env) (n : Nat) : List DockerPath → Except DErr (List PPath × Nat)
  | [] => .ok ([], n)
  | dp :: rest =>
      match mount_path env n dp with
      | .error e => .error e
      | .ok (mp, n') =>
          match mountPathList env n' rest with
          | .error e => .error e
          | .ok (mps, n'') => .ok (mp :: mps, n'')

/-- The container paths a run of `random`-mode arguments receives when the
supply starts at `n`. -/
def randomTargets (n : Nat) : List DockerPath → List PPath
  | [] => []
  | dp :: rest => ⟨true, ["temp", uuidStr n, dp.path.name]⟩ :: randomTargets (n + 1) rest

/-- One declared-argument event observed while the parser runs the actions:
the option string that introduced the values (absent for positionals) and
the tokens the recursive resolution appended for the values, in order
(implementation.py lines 185-192 and 216-219). -/
def eventTokens (acc : List String) (ev : Option String × List String) : List String :=
  (match ev.1 with
   | some o => acc ++ [o]
   | none => acc) ++ ev.2

/-- The run-command assembly of `parse_docker_args` (implementation.py lines
258-290): start from the optional prefix, append the script's container
path, let the declared actions append their tokens in parse order, and
finally extend with the unknown arguments. -/
def buildRunCommand (pfx : Option String) (scriptTok : String)
    (declared : List (Option String × List String)) (unknownArgs : List String) :
    List String :=
  let rc := match pfx with
    | some p => [p]
    | none => []
  let rc := rc ++ [scriptTok]
  let rc := declared.foldl eventTokens rc
  rc ++ unknownArgs

/-- The command the `argparse.py` flow hands to the container engine:
`ArgumentParser.parse_known_args` (argparse.py lines 255-268) passes the
unknown arguments only to `run_docker`, which forwards them to the optional
user callback and then calls `run_image` with `self.run_command` unchanged
(argparse.py lines 193-216) — the unknown arguments are never appended to
the command. -/
def runDockerCommand (runCommand : List String) (unknownArgs : List String) :
    List String := runCommand

/-- `docker.types.DeviceRequest` restricted to the fields
`resolve_gpu_device` populates. -/
structure DeviceRequest where
  count : Option Int
  deviceIds : Option (List String)
  capabilities : List (List String)
deriving DecidableEq, Repr

/-- Python `str.startswith`: the pattern's characters are a prefix of the
string's. -/
def pyStartsWith (s pat : String) : Bool := pat.data.isPrefixOf s.data

/-- Python `str.replace(old, new)` for a non-empty `old`, on character
lists: replace every non-overlapping occurrence left to right. The fuel is
an upper bound on the number of steps (each step consumes at least one
character), keeping the recursion structural. -/
def replaceAllFuel (pat repl : List Char) : Nat → List Char → List Char
  | _, [] => []
  | 0, l => l
  | fuel + 1, c :: rest =>
      if pat.isPrefixOf (c :: rest) ∧ pat ≠ [] then
        repl ++ replaceAllFuel pat repl fuel (List.drop pat.length (c :: rest))
      else
        c :: replaceAllFuel pat repl fuel rest

/-- Python `str.replace(old, new)` for a non-empty `old`. -/
def pyReplace (s pat repl : String) : String :=
  ⟨replaceAllFuel pat.data repl.data s.data.length s.data⟩

/-- Python `str.split(sep)` for a one-character separator, on character
lists: always at least one (possibly empty) field. -/
def splitOnChar (sep : Char) : List Char → List (List Char)
  | [] => [[]]
  | c :: rest =>
      let r := splitOnChar sep rest
      if c = sep then [] :: r
      else
        match r with
        | [] => [[c]]
        | h :: t => (c :: h) :: t

/-- Python `str.split(sep)` for a one-character separator. -/
def pySplit (s : String) (sep : Char) : List String :=
  (splitOnChar sep s.data).map String.mk

/-- `resolve_gpu_device` (utils.py lines 209-228): `"all"` maps to one
request with `count=-1` and capability `[["gpu"]]`; a `"device="` string
maps to one request listing the comma-separated ids of
`arg.replace("device=", "").split(",")`; anything else raises
`ValueError`. -/
def resolve_gpu_device (arg : String) : Except DErr (List DeviceRequest) :=
  if arg = "all" then
    .ok [⟨some (-1), none, [["gpu"]]⟩]
  else if pyStartsWith arg "device=" then
    .ok [⟨none, some (pySplit (pyReplace arg "device=" "") ','), [["gpu"]]⟩]
  else
    .error (.valueError ("Unknown gpu device value: " ++ arg))

/-- A process signal handler slot, as `signal.getsignal` would report it. -/
inductive Handler where
  | sigDfl
  | user (n : Nat)
  | killOnInterrupt
deriving DecidableEq, Repr

/-- The handler-installation loop of `KillContainerOnInterrupt.__enter__`
(utils.py lines 131-132): every catchable signal's slot is replaced by the
instance's `_handler`, the previous handlers being remembered for
`__exit__`. -/
def installHandlers (catchable : List Nat) (tbl : List (Nat × Handler)) :
    List (Nat × Handler) :=
  tbl.map fun e => if e.1 ∈ catchable then (e.1, Handler.killOnInterrupt) else e

/-- `KillContainerOnInterrupt.__enter__` (utils.py lines 125-147): first
install the interrupt handlers, then create the container. `createResult =
none` models `client.containers.run` raising; the exception propagates out
of `__enter__` with the handlers already replaced. -/
def enterKillContainerOnInterrupt (catchable : List Nat) (createResult : Option Nat)
    (tbl : List (Nat × Handler)) : List (Nat × Handler) × Option Nat :=
  (installHandlers catchable tbl, createResult)

/-- The process's signal-handler table after `run_image`'s `with
KillContainerOnInterrupt(...)` block (utils.py lines 176-206): when
`__enter__` raises, the context-manager protocol skips `__exit__`, so the
handlers installed by `__enter__` stay in place; on the normal path
`__exit__` (utils.py lines 164-173) restores every saved handler. -/
def runImageHandlerState (catchable : List Nat) (createResult : Option Nat)
    (tbl : List (Nat × Handler)) : List (Nat × Handler) :=
  let (installed, container) := enterKillContainerOnInterrupt catchable createResult tbl
  match container with
  | none => installed
  | some _ => tbl

theorem resolveP_absolute (cwd : List String) (p : PPath) :
    (resolveP cwd p).absolute = true := by
  unfold resolveP
  split
  · next h => exact h
  · rfl

theorem mount_path_random (env : Env) (n : Nat) (dp : DockerPath)
    (h : dp.mountPathOpt = .random) :
    mount_path env n dp = .ok (⟨true, ["temp", uuidStr n, dp.path.name]⟩, n + 1) := by
  simp [mount_path, h]

theorem mount_path_host (env : Env) (n : Nat) (dp : DockerPath)
    (h : dp.mountPathOpt = .host) :
    mount_path env n dp = .ok (resolveP env.cwd dp.path, n) := by
  simp [mount_path, h, resolveP_absolute]

theorem mount_path_explicit_nonabs (env : Env) (n : Nat) (dp : DockerPath)
    (q : PPath) (hopt : dp.mountPathOpt = .explicitPath q) (habs : q.absolute = false) :
    mount_path env n dp =
      .error (.assertionError "Require an absolute path for the mount path") := by
  simp only [mount_path, hopt]
  cases hmp : mountParentB env dp <;> simp [hmp, PPath.pushSeg, habs]

/-- Outside `random` mode the `mount_path` property is deterministic: it
consumes no uuid draw and its value does not depend on the supply
position. -/
theorem mount_path_nonrandom (env : Env) (dp : DockerPath)
    (h : dp.mountPathOpt ≠ .random) {n n' : Nat} {mp : PPath}
    (hok : mount_path env n dp = .ok (mp, n')) :
    n' = n ∧ ∀ k, mount_path env k dp = .ok (mp, k) := by
  cases hopt : dp.mountPathOpt with
  | host =>
    rw [mount_path_host env n dp hopt] at hok
    injection hok with hok
    injection hok with h1 h2
    subst h1
    exact ⟨h2.symm, fun k => mount_path_host env k dp hopt⟩
  | random => exact absurd hopt h
  | explicitPath q =>
    simp only [mount_path, hopt] at hok ⊢
    cases habs : (if mountParentB env dp then q.pushSeg dp.path.name else q).absolute with
    | false => simp [habs] at hok
    | true =>
      simp only [habs, if_true] at hok ⊢
      injection hok with hok
      injection hok with h1 h2
      subst h1
      exact ⟨h2.symm, fun k => rfl⟩

/-- Computation rule for `get_target_source` on a successful `mount_path`. -/
theorem get_target_source_ok {env : Env} {n : Nat} {dp : DockerPath} {mp : PPath}
    {n' : Nat} (hmp : mount_path env n dp = .ok (mp, n')) :
    get_target_source env n dp =
      .ok ((if mountParentB env dp then
              (render mp.parent, render (resolveP env.cwd dp.path.parent))
            else
              (render mp, render (resolveP env.cwd dp.path))), n') := by
  unfold get_target_source
  rw [hmp]
  cases hpar : mountParentB env dp <;> simp [hpar]

theorem get_target_source_err {env : Env} {n : Nat} {dp : DockerPath} {e : DErr}
    (hmp : mount_path env n dp = .error e) :
    get_target_source env n dp = .error e := by
  unfold get_target_source
  rw [hmp]

/-- Computation rule for `get_mount` on a successful `mount_path`. -/
theorem get_mount_ok {env : Env} {n : Nat} {dp : DockerPath} {mp : PPath}
    {n' : Nat} (hmp : mount_path env n dp = .ok (mp, n')) :
    get_mount env n dp =
      .ok (⟨(if mountParentB env dp then
               (render mp.parent, render (resolveP env.cwd dp.path.parent))
             else
               (render mp, render (resolveP env.cwd dp.path))).1,
            (if mountParentB env dp then
               (render mp.parent, render (resolveP env.cwd dp.path.parent))
             else
               (render mp, render (resolveP env.cwd dp.path))).2,
            "bind", dp.readOnly⟩, n') := by
  unfold get_mount
  rw [get_target_source_ok hmp]

theorem get_mount_err {env : Env} {n : Nat} {dp : DockerPath} {e : DErr}
    (hmp : mount_path env n dp = .error e) :
    get_mount env n dp = .error e := by
  unfold get_mount
  rw [get_target_source_err hmp]

theorem get_mount_nonrandom (env : Env) (dp : DockerPath)
    (h : dp.mountPathOpt ≠ .random) {n n' : Nat} {m : Mount}
    (hok : get_mount env n dp = .ok (m, n')) :
    n' = n ∧ ∀ k, get_mount env k dp = .ok (m, k) := by
  cases hmp : mount_path env n dp with
  | error e => rw [get_mount_err hmp] at hok; cases hok
  | ok r =>
    obtain ⟨mp, nmid⟩ := r
    obtain ⟨hn, hall⟩ := mount_path_nonrandom env dp h hmp
    subst hn
    rw [get_mount_ok hmp] at hok
    injection hok with hok
    injection hok with h1 h2
    subst h2
    refine ⟨rfl, fun k => ?_⟩
    rw [get_mount_ok (hall k), h1]

/-- A run whose arguments all use `random` mode produces exactly the targets
`randomTargets`, consuming one uuid draw per argument. -/
theorem mountPathList_random (env : Env) (dps : List DockerPath)
    (h : ∀ dp ∈ dps, dp.mountPathOpt = .random) (n : Nat) :
    mountPathList env n dps = .ok (randomTargets n dps, n + dps.length) := by
  induction dps generalizing n with
  | nil => simp [mountPathList, randomTargets]
  | cons dp rest ih =>
    have h1 := h dp (List.mem_cons_self _ _)
    simp only [mountPathList, mount_path_random env n dp h1,
      ih (fun d hd => h d (List.mem_cons_of_mem _ hd)) (n + 1)]
    simp [randomTargets]
    omega

theorem mem_randomTargets {p : PPath} {n : Nat} {dps : List DockerPath}
    (h : p ∈ randomTargets n dps) :
    ∃ k nm, n ≤ k ∧ p = ⟨true, ["temp", uuidStr k, nm]⟩ := by
  induction dps generalizing n with
  | nil => cases h
  | cons dp rest ih =>
    rcases List.mem_cons.mp h with h | h
    · exact ⟨n, dp.path.name, le_refl n, h⟩
    · obtain ⟨k, nm, hk, hp⟩ := ih h
      exact ⟨k, nm, by omega, hp⟩

/-- Distinct supply positions give distinct random targets, so the targets of
one run are pairwise distinct. -/
theorem randomTargets_pairwise (n : Nat) (dps : List DockerPath) :
    (randomTargets n dps).Pairwise (· ≠ ·) := by
  induction dps generalizing n with
  | nil => simp [randomTargets]
  | cons dp rest ih =>
    simp only [randomTargets]
    refine List.Pairwise.cons ?_ (ih (n + 1))
    intro p hp heq
    obtain ⟨k, nm, hk, hpeq⟩ := mem_randomTargets hp
    rw [hpeq] at heq
    have hs := congrArg PPath.segments heq
    simp at hs
    have := uuidStr_injective hs.1
    omega

/-- Two absolute three-segment paths whose middle segments have different
lengths render to different strings. -/
theorem render_three_ne {a b₁ b₂ c : String} (h : b₁.length ≠ b₂.length) :
    render ⟨true, [a, b₁, c]⟩ ≠ render ⟨true, [a, b₂, c]⟩ := by
  intro he
  apply h
  have := congrArg String.length he
  simp only [render, renderSegs, if_true, String.length_append] at this
  omega

/-- C1: for every sequence of `add` operations on bind mounts, the `MountSet`
never holds two entries with the same (target, source) pair; adding a
read-write mount whose (target, source) matches an existing read-only entry
(its `ReadOnly` mirror) sets that entry's flag to `false` in place, keeping
its position; adding a read-only mount matching an existing read-write entry
leaves the set unchanged; and adding a mount matching no entry under either
flag appends it at the end. -/
theorem mountset_add_contract :
    (∀ ms : List Mount, (∀ m ∈ ms, m.mtype = "bind") → NoDupTS (mountSetOfList ms))
    ∧ (∀ (st : List Mount) (m : Mount) (pre post : List Mount), NoDupTS st →
        m.readOnly = false → st = pre ++ mirrorReadonly m :: post →
        mirrorReadonly m ∉ pre → addMount st m = pre ++ m :: post)
    ∧ (∀ (st : List Mount) (m : Mount), NoDupTS st → m.readOnly = true →
        mirrorReadonly m ∈ st → addMount st m = st)
    ∧ (∀ (st : List Mount) (m : Mount), (∀ e ∈ st, ¬ tsEq e m) →
        addMount st m = st ++ [m]) := by
  refine ⟨?_, ?_, ?_, ?_⟩
  · intro ms hb
    exact (foldl_addMount_invariant ms hb []
      (by simp [NoDupTS]) (by intro m hm; cases hm)).1
  · intro st m pre post hnd hro hsplit hpre
    have hmir : mirrorReadonly m ∈ st := by
      rw [hsplit]; exact List.mem_append_right _ (List.mem_cons_self _ _)
    have hmnotin : m ∉ st := by
      intro hm
      exact not_tsEq_of_noDupTS hnd hm hmir
        (fun h => mirrorReadonly_ne m h.symm) ⟨rfl, rfl⟩
    unfold addMount
    rw [if_neg hmnotin, if_pos hmir, hsplit, upgradeFirst_of_split hpre]
    have hm : { mirrorReadonly m with readOnly := false } = m := by
      cases m; simp_all [mirrorReadonly]
    rw [hm]
  · intro st m hnd hro hmir
    have hmnotin : m ∉ st := by
      intro hm
      exact not_tsEq_of_noDupTS hnd hm hmir
        (fun h => mirrorReadonly_ne m h.symm) ⟨rfl, rfl⟩
    unfold addMount
    rw [if_neg hmnotin, if_pos hmir,
      upgradeFirst_readOnly_false (by simp [mirrorReadonly, hro])]
  · intro st m hno
    have h1 : m ∉ st := fun hm => hno m hm ⟨rfl, rfl⟩
    have h2 : mirrorReadonly m ∉ st := fun hm => hno _ hm (tsEq_mirror m)
    unfold addMount
    rw [if_neg h1, if_neg h2]

/-- Witness for C1 on concrete mounts: a read-only entry followed by its
read-write upgrade collapses to a single entry; upgrading in place; the
no-downgrade no-op; and the plain append. -/
theorem mountset_add_contract_witness :
    NoDupTS (mountSetOfList
      [⟨"/t", "/s", "bind", true⟩, ⟨"/t", "/s", "bind", false⟩])
    ∧ addMount [⟨"/t", "/s", "bind", true⟩] ⟨"/t", "/s", "bind", false⟩ =
        [] ++ ⟨"/t", "/s", "bind", false⟩ :: []
    ∧ addMount [⟨"/t", "/s", "bind", false⟩] ⟨"/t", "/s", "bind", true⟩ =
        [⟨"/t", "/s", "bind", false⟩]
    ∧ addMount [⟨"/t", "/s", "bind", false⟩] ⟨"/t2", "/s", "bind", false⟩ =
        [⟨"/t", "/s", "bind", false⟩] ++ [⟨"/t2", "/s", "bind", false⟩] :=
  ⟨mountset_add_contract.1 _ (by decide),
   mountset_add_contract.2.1 _ ⟨"/t", "/s", "bind", false⟩ [] []
     (by unfold NoDupTS; decide) rfl (by decide) (by decide),
   mountset_add_contract.2.2.1 _ ⟨"/t", "/s", "bind", true⟩
     (by unfold NoDupTS; decide) rfl (by decide),
   mountset_add_contract.2.2.2 _ _ (by unfold tsEq; decide)⟩

/-- C9: strict `remove` deletes the first entry equal to the item when one
exists, otherwise the first entry equal to its `ReadOnly` mirror when one
exists, and otherwise raises `KeyError` leaving the data unchanged;
`discard` behaves identically except that the neither-present case is a
no-op. -/
theorem mountset_remove_discard_contract :
    ∀ (data : List Mount) (m : Mount),
      (m ∈ data →
        removeMount data m = .ok (removeFirst data m) ∧
        discardMount data m = removeFirst data m ∧
        ∀ pre post, data = pre ++ m :: post → m ∉ pre →
          removeFirst data m = pre ++ post)
      ∧ (m ∉ data → mirrorReadonly m ∈ data →
          removeMount data m = .ok (removeFirst data (mirrorReadonly m)) ∧
          discardMount data m = removeFirst data (mirrorReadonly m) ∧
          ∀ pre post, data = pre ++ mirrorReadonly m :: post →
            mirrorReadonly m ∉ pre →
            removeFirst data (mirrorReadonly m) = pre ++ post)
      ∧ (m ∉ data → mirrorReadonly m ∉ data →
          removeMount data m = .error (.keyError "Item not in MountSet") ∧
          discardMount data m = data) := by
  intro data m
  refine ⟨?_, ?_, ?_⟩
  · intro hm
    refine ⟨?_, ?_, ?_⟩
    · unfold removeMount; rw [if_pos hm]
    · unfold discardMount; rw [if_pos hm]
    · intro pre post hsplit hpre
      rw [hsplit, removeFirst_of_split hpre]
  · intro hm hmir
    refine ⟨?_, ?_, ?_⟩
    · unfold removeMount; rw [if_neg hm, if_pos hmir]
    · unfold discardMount; rw [if_neg hm, if_pos hmir]
    · intro pre post hsplit hpre
      rw [hsplit, removeFirst_of_split hpre]
  · intro hm hmir
    constructor
    · unfold removeMount; rw [if_neg hm, if_neg hmir]
    · unfold discardMount; rw [if_neg hm, if_neg hmir]

/-- Witness for C9 on concrete data: exact removal, mirrored removal, the
`KeyError` case, and the `discard` no-op. -/
theorem mountset_remove_discard_contract_witness :
    removeMount [⟨"/t", "/s", "bind", false⟩] ⟨"/t", "/s", "bind", false⟩ =
      .ok (removeFirst [⟨"/t", "/s", "bind", false⟩] ⟨"/t", "/s", "bind", false⟩)
    ∧ removeMount [⟨"/t", "/s", "bind", true⟩] ⟨"/t", "/s", "bind", false⟩ =
        .ok (removeFirst [⟨"/t", "/s", "bind", true⟩]
          (mirrorReadonly ⟨"/t", "/s", "bind", false⟩))
    ∧ removeMount [] ⟨"/t", "/s", "bind", false⟩ =
        .error (.keyError "Item not in MountSet")
    ∧ discardMount [] ⟨"/t", "/s", "bind", false⟩ = [] :=
  ⟨((mountset_remove_discard_contract _ _).1 (by decide)).1,
   ((mountset_remove_discard_contract
      [⟨"/t", "/s", "bind", true⟩] ⟨"/t", "/s", "bind", false⟩).2.1
      (by decide) (by decide)).1,
   ((mountset_remove_discard_contract [] _).2.2 (by decide) (by decide)).1,
   ((mountset_remove_discard_contract [] _).2.2 (by decide) (by decide)).2⟩

/-- Computation rule for the `DockerPath` leaf step of
`_recursive_resolve_args`. -/
theorem resolveDockerPathLeaf_ok {env : Env} {st : BuildState} {dp : DockerPath}
    {mp : PPath} {n1 : Nat} {m : Mount} {n2 : Nat}
    (hmp : mount_path env st.supply dp = .ok (mp, n1))
    (hgm : get_mount env n1 dp = .ok (m, n2)) :
    resolveDockerPathLeaf env st dp =
      .ok ⟨st.runCommand ++ [render mp], addMount st.mounts m, n2⟩ := by
  unfold resolveDockerPathLeaf
  simp [hmp, hgm]

theorem resolveDockerPathLeaf_err_mp {env : Env} {st : BuildState} {dp : DockerPath}
    {e : DErr} (hmp : mount_path env st.supply dp = .error e) :
    resolveDockerPathLeaf env st dp = .error e := by
  unfold resolveDockerPathLeaf
  simp [hmp]

theorem resolveDockerPathLeaf_err_gm {env : Env} {st : BuildState} {dp : DockerPath}
    {mp : PPath} {n1 : Nat} {e : DErr}
    (hmp : mount_path env st.supply dp = .ok (mp, n1))
    (hgm : get_mount env n1 dp = .error e) :
    resolveDockerPathLeaf env st dp = .error e := by
  unfold resolveDockerPathLeaf
  simp [hmp, hgm]

/-- C3: in `random` mount mode the produced container path is the fixed
namespace root `/temp`, then a freshly drawn unique identifier, then the host
path's base name, and the supply advances; consequently the arguments of one
run, resolved in order, receive pairwise distinct container paths. -/
theorem random_mount_path_contract :
    (∀ (env : Env) (n : Nat) (dp : DockerPath), dp.mountPathOpt = .random →
      mount_path env n dp = .ok (⟨true, ["temp", uuidStr n, dp.path.name]⟩, n + 1))
    ∧ (∀ (env : Env) (n : Nat) (dps : List DockerPath) (paths : List PPath)
        (n' : Nat), (∀ dp ∈ dps, dp.mountPathOpt = .random) →
        mountPathList env n dps = .ok (paths, n') →
        paths.Pairwise (· ≠ ·)) := by
  constructor
  · intro env n dp h
    exact mount_path_random env n dp h
  · intro env n dps paths n' hall hok
    rw [mountPathList_random env dps hall n] at hok
    injection hok with hok
    have h1 : randomTargets n dps = paths := congrArg Prod.fst hok
    rw [← h1]
    exact randomTargets_pairwise n dps

/-- Witness for C3: a concrete random-mode path resolves to
`/temp/<uuid>/<name>`, and two random-mode arguments of one run get distinct
container paths. -/
theorem random_mount_path_contract_witness :
    mount_path ⟨[], []⟩ 0 ⟨⟨true, ["data", "f.txt"]⟩, .random, false, some false⟩ =
      .ok (⟨true, ["temp", uuidStr 0, "f.txt"]⟩, 0 + 1)
    ∧ ([⟨true, ["temp", uuidStr 0, "a.txt"]⟩,
        ⟨true, ["temp", uuidStr 1, "b.txt"]⟩] : List PPath).Pairwise (· ≠ ·) :=
  ⟨random_mount_path_contract.1 ⟨[], []⟩ 0
     ⟨⟨true, ["data", "f.txt"]⟩, .random, false, some false⟩ rfl,
   random_mount_path_contract.2 ⟨[], []⟩ 0
     [⟨⟨true, ["a.txt"]⟩, .random, false, some false⟩,
      ⟨⟨true, ["b.txt"]⟩, .random, false, some false⟩] _ 2
     (by intro dp hdp; simp at hdp; rcases hdp with h | h <;> rw [h]) rfl⟩

/-- C4: with `mount_parent=None` (the `Auto` policy) the resolver binds the
parent exactly when the resolved host path does not exist at resolution
time, and binds the path itself exactly when it does; in the bind-parent
case the mount's target is the container path's parent and its source the
host path's parent directory. -/
theorem auto_mount_parent_contract :
    ∀ (env : Env) (dp : DockerPath), dp.mountParentOpt = none →
      ((mountParentB env dp = true ↔ resolveP env.cwd dp.path ∉ env.fs)
       ∧ (mountParentB env dp = false ↔ resolveP env.cwd dp.path ∈ env.fs))
      ∧ ∀ (n n' : Nat) (mp : PPath), mountParentB env dp = true →
          mount_path env n dp = .ok (mp, n') →
          get_target_source env n dp =
            .ok ((render mp.parent, render (resolveP env.cwd dp.path.parent)), n') := by
  intro env dp h
  constructor
  · unfold mountParentB
    rw [h]
    by_cases hm : resolveP env.cwd dp.path ∈ env.fs <;> simp [hm]
  · intro n n' mp hpar hok
    rw [get_target_source_ok hok]
    simp [hpar]

/-- Witness for C4: in an environment where the host path does not exist,
`Auto` resolves to bind-parent and the mount targets the parents. -/
theorem auto_mount_parent_contract_witness :
    ((mountParentB ⟨["home"], []⟩ ⟨⟨false, ["out.txt"]⟩, .host, false, none⟩ = true ↔
        resolveP ["home"] ⟨false, ["out.txt"]⟩ ∉ ([] : List PPath))
     ∧ (mountParentB ⟨["home"], []⟩ ⟨⟨false, ["out.txt"]⟩, .host, false, none⟩ = false ↔
        resolveP ["home"] ⟨false, ["out.txt"]⟩ ∈ ([] : List PPath)))
    ∧ get_target_source ⟨["home"], []⟩ 0 ⟨⟨false, ["out.txt"]⟩, .host, false, none⟩ =
        .ok ((render (PPath.parent ⟨true, ["home", "out.txt"]⟩),
              render (resolveP ["home"] (PPath.parent ⟨false, ["out.txt"]⟩))), 0) :=
  ⟨(auto_mount_parent_contract ⟨["home"], []⟩
      ⟨⟨false, ["out.txt"]⟩, .host, false, none⟩ rfl).1,
   (auto_mount_parent_contract ⟨["home"], []⟩
      ⟨⟨false, ["out.txt"]⟩, .host, false, none⟩ rfl).2 0 0
     ⟨true, ["home", "out.txt"]⟩ rfl rfl⟩

/-- C5: an explicit container target that is not absolute makes the
container-path construction itself fail with the absoluteness
`AssertionError` (the spec's `ConfigurationError`), and the failure
propagates through `_get_target_source`, `get_mount` and the
command-building leaf step, all of which run before any container is
started. -/
theorem explicit_nonabsolute_fails :
    ∀ (env : Env) (n : Nat) (dp : DockerPath) (q : PPath) (st : BuildState),
      dp.mountPathOpt = .explicitPath q → q.absolute = false →
      mount_path env n dp =
        .error (.assertionError "Require an absolute path for the mount path")
      ∧ get_target_source env n dp =
          .error (.assertionError "Require an absolute path for the mount path")
      ∧ get_mount env n dp =
          .error (.assertionError "Require an absolute path for the mount path")
      ∧ resolveDockerPathLeaf env st dp =
          .error (.assertionError "Require an absolute path for the mount path") := by
  intro env n dp q st hopt habs
  have h1 := mount_path_explicit_nonabs env n dp q hopt habs
  exact ⟨h1, get_target_source_err h1, get_mount_err h1,
    resolveDockerPathLeaf_err_mp (mount_path_explicit_nonabs env st.supply dp q hopt habs)⟩

/-- Witness for C5: a concrete relative explicit target fails everywhere. -/
theorem explicit_nonabsolute_fails_witness :
    mount_path ⟨[], []⟩ 0
      ⟨⟨true, ["data", "f"]⟩, .explicitPath ⟨false, ["srv"]⟩, false, some false⟩ =
      .error (.assertionError "Require an absolute path for the mount path")
    ∧ get_target_source ⟨[], []⟩ 0
        ⟨⟨true, ["data", "f"]⟩, .explicitPath ⟨false, ["srv"]⟩, false, some false⟩ =
        .error (.assertionError "Require an absolute path for the mount path")
    ∧ get_mount ⟨[], []⟩ 0
        ⟨⟨true, ["data", "f"]⟩, .explicitPath ⟨false, ["srv"]⟩, false, some false⟩ =
        .error (.assertionError "Require an absolute path for the mount path")
    ∧ resolveDockerPathLeaf ⟨[], []⟩ ⟨[], [], 0⟩
        ⟨⟨true, ["data", "f"]⟩, .explicitPath ⟨false, ["srv"]⟩, false, some false⟩ =
        .error (.assertionError "Require an absolute path for the mount path") :=
  explicit_nonabsolute_fails ⟨[], []⟩ 0
    ⟨⟨true, ["data", "f"]⟩, .explicitPath ⟨false, ["srv"]⟩, false, some false⟩
    ⟨false, ["srv"]⟩ ⟨[], [], 0⟩ rfl rfl

/-- C2 (amended): when the already-resolved `DockerPath` has a deterministic
container path (`host` or explicit mode — anything but `random`), running it
through the command-building leaf step a second time adds no second mount:
the second step leaves the `MountSet` unchanged, and starting from an empty
set both steps leave exactly one mount for that path. -/
theorem resolve_twice_nonrandom_single_mount :
    ∀ (env : Env) (st st₁ st₂ : BuildState) (dp : DockerPath),
      dp.mountPathOpt ≠ .random →
      resolveDockerPathLeaf env st dp = .ok st₁ →
      resolveDockerPathLeaf env st₁ dp = .ok st₂ →
      st₂.mounts = st₁.mounts ∧
        (st.mounts = [] → st₁.mounts.length = 1 ∧ st₂.mounts.length = 1) := by
  intro env st st₁ st₂ dp hnr h1 h2
  cases hmp : mount_path env st.supply dp with
  | error e =>
    rw [resolveDockerPathLeaf_err_mp hmp] at h1
    cases h1
  | ok r =>
    obtain ⟨mp, n1⟩ := r
    obtain ⟨hn1, hallmp⟩ := mount_path_nonrandom env dp hnr hmp
    subst hn1
    cases hgm : get_mount env st.supply dp with
    | error e =>
      rw [resolveDockerPathLeaf_err_gm hmp hgm] at h1
      cases h1
    | ok rg =>
      obtain ⟨m, n2⟩ := rg
      obtain ⟨hn2, hallgm⟩ := get_mount_nonrandom env dp hnr hgm
      subst hn2
      rw [resolveDockerPathLeaf_ok hmp hgm] at h1
      injection h1 with h1
      subst h1
      rw [resolveDockerPathLeaf_ok (hallmp _) (hallgm _)] at h2
      injection h2 with h2
      subst h2
      refine ⟨addMount_idem st.mounts m, ?_⟩
      intro hempty
      simp only [hempty]
      have hone : addMount [] m = [m] := by simp [addMount]
      have htwo : addMount [m] m = [m] := by simp [addMount]
      rw [hone, htwo]
      exact ⟨rfl, rfl⟩

/-- Witness for C2's amended statement: one concrete host-mode path run
through the leaf step twice yields the same singleton mount set. -/
theorem resolve_twice_nonrandom_single_mount_witness :
    BuildState.mounts ⟨["/data/f"], [⟨"/data/f", "/data/f", "bind", false⟩], 0⟩ =
      BuildState.mounts ⟨["/data/f", "/data/f"],
        [⟨"/data/f", "/data/f", "bind", false⟩], 0⟩ ∧
    (([] : List Mount) = [] →
      (BuildState.mounts ⟨["/data/f"],
        [⟨"/data/f", "/data/f", "bind", false⟩], 0⟩).length = 1 ∧
      (BuildState.mounts ⟨["/data/f", "/data/f"],
        [⟨"/data/f", "/data/f", "bind", false⟩], 0⟩).length = 1) :=
  resolve_twice_nonrandom_single_mount ⟨[], []⟩ ⟨[], [], 0⟩
    ⟨["/data/f"], [⟨"/data/f", "/data/f", "bind", false⟩], 0⟩
    ⟨["/data/f", "/data/f"], [⟨"/data/f", "/data/f", "bind", false⟩], 0⟩
    ⟨⟨true, ["data", "f"]⟩, .host, false, some false⟩
    (by simp) rfl rfl

/-- Counterexample to C2 as stated: a `random`-mode `DockerPath` run through
the same leaf step twice ends with two mounts in the set, because each
`mount_path` access draws a fresh identifier and so the second `get_mount`
produces a mount the set does not yet contain. -/
theorem resolve_twice_random_adds_second_mount :
    ((resolveDockerPathLeaf ⟨[], []⟩ ⟨[], [], 0⟩
        ⟨⟨true, ["data", "f.txt"]⟩, .random, false, some false⟩).bind
      (fun st₁ => resolveDockerPathLeaf ⟨[], []⟩ st₁
        ⟨⟨true, ["data", "f.txt"]⟩, .random, false, some false⟩)).map
      (fun st => st.mounts.length) = .ok 2 := rfl

/-- C10: for a `random`-mode `DockerPath` (bind itself), one pass of the
command-building leaf appends a token drawn from one `mount_path` access
while registering a mount whose target comes from a second access inside
`get_mount`; the two identifier components differ, so the command token
names a container path different from the mount's target — a path at which
nothing is mounted. -/
theorem random_mode_token_target_mismatch :
    ∀ (env : Env) (st : BuildState) (dp : DockerPath),
      dp.mountPathOpt = .random → dp.mountParentOpt = some false →
      st.mounts = [] →
      resolveDockerPathLeaf env st dp =
        .ok ⟨st.runCommand ++
              [render ⟨true, ["temp", uuidStr st.supply, dp.path.name]⟩],
             [⟨render ⟨true, ["temp", uuidStr (st.supply + 1), dp.path.name]⟩,
               render (resolveP env.cwd dp.path), "bind", dp.readOnly⟩],
             st.supply + 2⟩
      ∧ uuidStr st.supply ≠ uuidStr (st.supply + 1)
      ∧ render ⟨true, ["temp", uuidStr st.supply, dp.path.name]⟩ ≠
          render ⟨true, ["temp", uuidStr (st.supply + 1), dp.path.name]⟩ := by
  intro env st dp hr hpf hm0
  have hmp1 := mount_path_random env st.supply dp hr
  have hmp2 := mount_path_random env (st.supply + 1) dp hr
  have hpar : mountParentB env dp = false := by unfold mountParentB; rw [hpf]
  have hgm := get_mount_ok hmp2
  simp only [hpar, Bool.false_eq_true, if_false] at hgm
  refine ⟨?_, ?_, ?_⟩
  · rw [resolveDockerPathLeaf_ok hmp1 hgm, hm0]
    have hone : ∀ m : Mount, addMount [] m = [m] := by intro m; simp [addMount]
    rw [hone]
  · intro h
    have := uuidStr_injective h
    omega
  · exact render_three_ne (by rw [uuidStr_length, uuidStr_length]; omega)

/-- Witness for C10 at a concrete path: the appended token uses draw 0, the
registered mount's target uses draw 1, and the two rendered paths differ. -/
theorem random_mode_token_target_mismatch_witness :
    resolveDockerPathLeaf ⟨[], []⟩ ⟨[], [], 0⟩
      ⟨⟨true, ["data", "f.txt"]⟩, .random, false, some false⟩ =
      .ok ⟨[render ⟨true, ["temp", uuidStr 0, "f.txt"]⟩],
           [⟨render ⟨true, ["temp", uuidStr 1, "f.txt"]⟩,
             render (resolveP [] ⟨true, ["data", "f.txt"]⟩), "bind", false⟩], 2⟩
    ∧ uuidStr 0 ≠ uuidStr 1
    ∧ render ⟨true, ["temp", uuidStr 0, "f.txt"]⟩ ≠
        render ⟨true, ["temp", uuidStr 1, "f.txt"]⟩ :=
  random_mode_token_target_mismatch ⟨[], []⟩ ⟨[], [], 0⟩
    ⟨⟨true, ["data", "f.txt"]⟩, .random, false, some false⟩ rfl rfl rfl

/-- C6 evaluated at the failing input: when container creation raises inside
`KillContainerOnInterrupt.__enter__`, the signal handlers installed at the
start of `__enter__` remain in place afterwards — the handler table after the
failed run attempt is the fully replaced one, not the original — because
`__exit__` never runs when `__enter__` raises. This contradicts the claim
that the process's signal-handler state is unchanged by a failed run. -/
theorem launch_failure_keeps_handlers_installed :
    runImageHandlerState [2, 15] none [(2, .sigDfl), (15, .user 7)] =
      [(2, .killOnInterrupt), (15, .killOnInterrupt)]
    ∧ [(2, Handler.killOnInterrupt), (15, Handler.killOnInterrupt)] ≠
        [(2, Handler.sigDfl), (15, Handler.user 7)] := by
  constructor
  · rfl
  · decide

/-- C7 (amended): `parse_docker_args` appends the unrecognized passthrough
tokens verbatim at the very end of the run command, strictly after the
prefix, the script token and every token the declared actions contributed. -/
theorem parse_docker_args_passthrough_appended_last :
    ∀ (pfx : Option String) (scriptTok : String)
      (declared : List (Option String × List String)) (unknownArgs : List String),
      buildRunCommand pfx scriptTok declared unknownArgs =
        buildRunCommand pfx scriptTok declared [] ++ unknownArgs := by
  intro pfx s d u
  simp [buildRunCommand]

/-- Counterexample to C7 as stated: in the `argparse.py` flow the command
handed to the container engine is the factory's `run_command` unchanged, so
an unrecognized token does not appear in it at all. -/
theorem argparse_flow_drops_passthrough_tokens :
    "--extra" ∉ runDockerCommand ["python", "/script.py"] ["--extra"] := by
  decide

/-- C8: `resolve_gpu_device "all"` yields exactly one device request with
unlimited count (`-1`) and capability `[["gpu"]]`; `"device=0,1"` yields one
request listing ids `["0", "1"]`; every string matching neither `"all"` nor
the `device=` prefix raises (the spec's `ConfigurationError`, a `ValueError`
in the code). -/
theorem resolve_gpu_device_contract :
    resolve_gpu_device "all" = .ok [⟨some (-1), none, [["gpu"]]⟩]
    ∧ resolve_gpu_device "device=0,1" = .ok [⟨none, some ["0", "1"], [["gpu"]]⟩]
    ∧ ∀ s : String, s ≠ "all" → pyStartsWith s "device=" = false →
        resolve_gpu_device s =
          .error (.valueError ("Unknown gpu device value: " ++ s)) := by
  refine ⟨rfl, rfl, ?_⟩
  intro s h1 h2
  simp [resolve_gpu_device, h1, h2]

/-- Witness for C8: the error case evaluated at `"bogus"`. -/
theorem resolve_gpu_device_contract_witness :
    resolve_gpu_device "bogus" =
      .error (.valueError ("Unknown gpu device value: " ++ "bogus")) :=
  resolve_gpu_device_contract.2.2 "bogus" (by decide) rfl

end Dockrice
